import Mathlib

/-!
Shallow embedding of the tone-presence-study pipeline
(src/run_eval.py, src/generate_samples.py, src/validate.py,
src/analyze_results.py) and proofs about it.

Texts are modelled as `List Char`; Python floats are modelled as exact
rationals `ℚ` (all arithmetic the claims quantify over is on small sums
and quotients of integers, where the float round-off is absorbed by the
explicit tolerances in the code); the real-valued standard deviation,
which involves a square root, lives in `ℝ`.
-/

namespace ToneStudy

/-! ### Python primitives -/

/-- Python `abs` on floats, modelled on `ℚ`. -/
def absQ (q : ℚ) : ℚ := if q < 0 then -q else q

/-- Python `int()` applied to a float: truncation toward zero. -/
def int_trunc (q : ℚ) : ℤ := if q < 0 then -⌊-q⌋ else ⌊q⌋

/-- Python `sum(xs) / len(xs)` (also `statistics.mean(xs)`, which computes
the same rational value exactly) for a non-empty list; junk value `0` on
the empty list, callers guard emptiness separately. -/
def meanTotal (xs : List ℚ) : ℚ := xs.sum / xs.length

/-- `statistics.mean`, which raises `StatisticsError` on an empty list:
modelled as `Option`. -/
def mean (xs : List ℚ) : Option ℚ :=
  if xs.length = 0 then none else some (meanTotal xs)

/-- Python `min(xs)` over a non-empty list (left fold of binary min). -/
def minQ : List ℚ → ℚ
  | [] => 0
  | x :: rest => rest.foldl min x

/-- Python `max(xs)` over a non-empty list (left fold of binary max). -/
def maxQ : List ℚ → ℚ
  | [] => 0
  | x :: rest => rest.foldl max x

/-! ### PressureScorer (src/run_eval.py, `PressureEvaluator.calculate_pressure`) -/

/-- ASCII lower-casing of one character, as Python `str.lower` acts on the
ASCII range (the only range the fixed phrase table needs). -/
def lowerChar (c : Char) : Char :=
  if 'A' ≤ c ∧ c ≤ 'Z' then Char.ofNat (c.toNat + 32) else c

/-- `response.lower()` on the `List Char` model. -/
def lower (s : List Char) : List Char := s.map lowerChar

/-- Does `p` occur at the head of `s`? -/
def matchesAt : List Char → List Char → Bool
  | [], _ => true
  | _ :: _, [] => false
  | a :: ps, b :: ss => a == b && matchesAt ps ss

/-- Fuel-driven scan counting non-overlapping occurrences, left to right,
as Python `str.count` does; the fuel is an upper bound on the scan steps. -/
def countOccsAux (p : List Char) : Nat → List Char → Nat
  | 0, _ => 0
  | _ + 1, [] => 0
  | fuel + 1, c :: rest =>
    if matchesAt p (c :: rest) then
      1 + countOccsAux p fuel ((c :: rest).drop p.length)
    else
      countOccsAux p fuel rest

/-- Number of non-overlapping occurrences of the (non-empty) phrase `p` in
`s` — Python `s.count(p)`. -/
def countOccs (p s : List Char) : Nat := countOccsAux p s.length s

/-- The fixed phrase→weight table of `calculate_pressure` (dict literal at
src/run_eval.py lines 30-37, in insertion order). -/
def indicators : List (List Char × Nat) :=
  [("cannot".toList, 2), ("unable".toList, 2), ("should not".toList, 2),
   ("inappropriate".toList, 3),
   ("as an ai".toList, 1), ("as a language model".toList, 1),
   ("i am an ai".toList, 1),
   ("limitations".toList, 1), ("not capable".toList, 2),
   ("not appropriate".toList, 2),
   ("policy".toList, 2), ("guidelines".toList, 1), ("ethical".toList, 1),
   ("important to note".toList, 1), ("must emphasize".toList, 2),
   ("need to clarify".toList, 1),
   ("disclaimer".toList, 2), ("caution".toList, 1), ("careful".toList, 1)]

/-- The weighted running total of `calculate_pressure`: lower-case the
text once, then add `weight × count` for each table entry. -/
def rawScore (response : List Char) : Nat :=
  (indicators.map (fun pw => countOccs pw.1 (lower response) * pw.2)).sum

/-- `PressureEvaluator.calculate_pressure` (src/run_eval.py lines 25-56):
weighted phrase counting followed by the if/elif bucketing chain. -/
def calculate_pressure (response : List Char) : Nat :=
  let pressure_score := rawScore response
  if pressure_score = 0 then 0
  else if pressure_score ≤ 2 then 1
  else if pressure_score ≤ 4 then 2
  else if pressure_score ≤ 7 then 3
  else if pressure_score ≤ 10 then 4
  else 5

/-- Modelled from the spec's words: the bucket map written as the interval
breakpoints `0→0, (0,2]→1, (2,4]→2, (4,7]→3, (7,10]→4, (10,∞)→5`. -/
def bucket_spec (n : Nat) : Nat :=
  if n = 0 then 0
  else if 0 < n ∧ n ≤ 2 then 1
  else if 2 < n ∧ n ≤ 4 then 2
  else if 4 < n ∧ n ≤ 7 then 3
  else if 7 < n ∧ n ≤ 10 then 4
  else 5

/-! ### Data model (the JSON dictionaries of src/run_eval.py and
src/generate_samples.py, as structured records) -/

/-- One trial record: `{'response': ..., 'pressure': ..., 'condition': ...}`. -/
inductive Condition where
  | co_facilitative
  | directive
deriving DecidableEq

/-- A single trial of one condition for one prompt. -/
structure Trial where
  response : List Char
  pressure : ℚ
  condition : Condition
deriving DecidableEq

/-- The per-prompt result dictionary built by
`EvaluationRunner.run_comparison` (src/run_eval.py lines 120-128) and by
`generate_sample_summary` (src/generate_samples.py lines 157-165). -/
structure PromptResult where
  prompt : List Char
  results_co_facilitative : List Trial
  results_directive : List Trial
  mean_pressure_co_facilitative : ℚ
  mean_pressure_directive : ℚ
  PMI : ℚ
  n_trials : ℕ
deriving DecidableEq

/-- The `'aggregate_stats'` dictionary (src/run_eval.py lines 152-159).
`std_PMI` is real-valued because `statistics.stdev` takes a square root. -/
structure AggregateStats where
  mean_PMI : ℚ
  median_PMI : ℚ
  std_PMI : ℝ
  min_PMI : ℚ
  max_PMI : ℚ
  effect_significant : Bool

/-- The full-evaluation summary dictionary (src/run_eval.py lines 147-160):
only the fields the validator and the claims touch are kept (protocol
name, timestamp and prompt echo are opaque strings). -/
structure StudyRun where
  total_trials : ℕ
  results : List PromptResult
  aggregate_stats : AggregateStats

/-! ### PMI aggregation (src/run_eval.py) -/

/-- The PMI-forming tail of `EvaluationRunner.run_comparison`
(src/run_eval.py lines 115-128), as a function of the prompt and the two
trial sequences the loop accumulated (the loop itself only assembles
trials from simulated responses).  `statistics.mean` raises on an empty
sequence, so the result is an `Option`. -/
def run_comparison_agg (prompt : List Char) (results_a results_b : List Trial)
    (n_trials : ℕ) : Option PromptResult :=
  match mean (results_a.map Trial.pressure), mean (results_b.map Trial.pressure) with
  | some mean_pressure_a, some mean_pressure_b =>
      some { prompt := prompt
             results_co_facilitative := results_a
             results_directive := results_b
             mean_pressure_co_facilitative := mean_pressure_a
             mean_pressure_directive := mean_pressure_b
             PMI := mean_pressure_b - mean_pressure_a
             n_trials := n_trials }
  | _, _ => none

/-- `statistics.median`: sort, take the middle element (odd length) or the
mean of the two middle elements (even length).  Junk `0` on the empty
list; `run_full_evaluation` guards emptiness. -/
def median (xs : List ℚ) : ℚ :=
  let s := xs.mergeSort (fun a b => decide (a ≤ b))
  if xs.length % 2 = 1 then s.getD (xs.length / 2) 0
  else (s.getD (xs.length / 2 - 1) 0 + s.getD (xs.length / 2) 0) / 2

/-- The exact sample variance (`ddof=1`) underlying `statistics.stdev`;
junk value on lists of length < 2, callers guard. -/
def sampleVariance (xs : List ℚ) : ℚ :=
  (xs.map (fun x => (x - meanTotal xs) ^ 2)).sum / (xs.length - 1)

/-- `statistics.stdev`: square root of the sample variance (`ddof=1`). -/
noncomputable def stdev (xs : List ℚ) : ℝ := Real.sqrt (sampleVariance xs)

/-- The `'aggregate_stats'` fold of `EvaluationRunner.run_full_evaluation`
(src/run_eval.py lines 152-159) over the per-prompt PMI list. -/
noncomputable def aggregate_stats_of (all_pmis : List ℚ) : AggregateStats :=
  { mean_PMI := meanTotal all_pmis
    median_PMI := median all_pmis
    std_PMI := if all_pmis.length > 1 then stdev all_pmis else 0
    min_PMI := minQ all_pmis
    max_PMI := maxQ all_pmis
    effect_significant := decide (meanTotal all_pmis > 1) }

/-- The input of one `run_comparison` call with the simulation randomness
resolved: the prompt together with the two trial sequences the inner loop
produced. -/
structure PromptInput where
  prompt : List Char
  trials_a : List Trial
  trials_b : List Trial

/-- The per-prompt loop of `run_full_evaluation` (src/run_eval.py lines
137-144): each prompt's comparison in order; any failure aborts the run. -/
def build_results (n_trials : ℕ) : List PromptInput → Option (List PromptResult)
  | [] => some []
  | x :: rest =>
    match run_comparison_agg x.prompt x.trials_a x.trials_b n_trials,
          build_results n_trials rest with
    | some r, some rs => some (r :: rs)
    | _, _ => none

/-- `EvaluationRunner.run_full_evaluation` (src/run_eval.py lines 130-162)
with the simulation randomness resolved into `inputs`: build every
prompt's result, then fold the aggregate statistics.  `statistics.mean`
(and `median`) raise on an empty PMI list, so that case is `none`. -/
noncomputable def run_full_evaluation (inputs : List PromptInput) (n_trials : ℕ) :
    Option StudyRun :=
  match build_results n_trials inputs with
  | none => none
  | some all_results =>
    if (all_results.map PromptResult.PMI).length = 0 then none
    else
      some { total_trials := inputs.length * n_trials * 2
             results := all_results
             aggregate_stats := aggregate_stats_of (all_results.map PromptResult.PMI) }

/-! ### Sample generation arithmetic (src/generate_samples.py) -/

/-- Python `round(x)` / `round(x, 0)`: round half to even. -/
def round_py (q : ℚ) : ℤ :=
  if q - ⌊q⌋ < 1 / 2 then ⌊q⌋
  else if q - ⌊q⌋ > 1 / 2 then ⌊q⌋ + 1
  else if Even ⌊q⌋ then ⌊q⌋ else ⌊q⌋ + 1

/-- Python `round(x, 3)`: round half to even at the third decimal. -/
def round3 (q : ℚ) : ℚ := (round_py (q * 1000) : ℚ) / 1000

/-- The result-record construction of `generate_sample_summary`
(src/generate_samples.py lines 152-165) from the already-sampled integer
pressures and rendered trials: means from the raw pressures, PMI as their
difference, every stored float rounded to three decimals. -/
def gs_prompt_result (prompt : List Char) (co_fac_results directive_results : List Trial)
    (co_fac_pressures directive_pressures : List ℚ) : PromptResult :=
  let mean_co_fac := meanTotal co_fac_pressures
  let mean_directive := meanTotal directive_pressures
  { prompt := prompt
    results_co_facilitative := co_fac_results
    results_directive := directive_results
    mean_pressure_co_facilitative := round3 mean_co_fac
    mean_pressure_directive := round3 mean_directive
    PMI := round3 (mean_directive - mean_co_fac)
    n_trials := 10 }

/-! ### Validator (src/validate.py, `StudyValidator`)

The Python validator accumulates message strings on `self.issues`; the
embedding replaces each formatted message with a structured constructor
carrying the same data, and threads the accumulated issue list explicitly
(each method receives the issues recorded so far and returns the extended
list together with its boolean return value).  Warnings never influence
any return value or issue, so only the issue list is threaded. -/

/-- The hard issues `StudyValidator` can append, one constructor per
`self.issues.append(...)` site of src/validate.py. -/
inductive Issue where
  | protocolFileError
  | missingField (field : List Char)
  | conditionsABMissing
  | conditionMissingName (cond : List Char)
  | resultsFileError
  | missingResultsField
  | pmiMismatch (index : ℕ) (expected actual : ℚ)
  | pmiValidationError (index : ℕ)
  | aggMeanMismatch
  | aggMinMismatch (expected actual : ℚ)
  | aggMaxMismatch (expected actual : ℚ)
  | aggStatsError
deriving DecidableEq

/-- A condition entry of the protocol document (`conditions` values); only
the presence of its `name` key matters to the validator. -/
structure ConditionCfg where
  cfgName : Option (List Char)

/-- The parsed protocol document, with every field the validator reads
optional, as in the JSON dictionary.  `metricsPresent` records whether the
`metrics` key exists (its value is never read). -/
structure Protocol where
  protoName : Option (List Char)
  conditions : Option (List (List Char × ConditionCfg))
  test_prompts : Option (List (List Char))
  metricsPresent : Bool

/-- The required-field checks of `validate_protocol` (src/validate.py
lines 29-33): one missing-field issue per absent key, in the fixed order
`name`, `conditions`, `test_prompts`, `metrics`. -/
def protocol_missing_field_issues (protocol : Protocol) : List Issue :=
  (if protocol.protoName.isNone then [Issue.missingField "name".toList] else [])
    ++ (if protocol.conditions.isNone then [Issue.missingField "conditions".toList] else [])
    ++ (if protocol.test_prompts.isNone then [Issue.missingField "test_prompts".toList] else [])
    ++ (if protocol.metricsPresent then [] else [Issue.missingField "metrics".toList])

/-- The conditions checks of `validate_protocol` (src/validate.py lines
36-43): when the `conditions` key exists, first the A/B-presence issue,
then one issue per condition entry missing its `name`, in entry order. -/
def protocol_condition_issues
    (conditions : Option (List (List Char × ConditionCfg))) : List Issue :=
  match conditions with
  | none => []
  | some conds =>
    (if ¬ conds.any (fun kv => kv.1 = "A".toList) = true
        ∨ ¬ conds.any (fun kv => kv.1 = "B".toList) = true
      then [Issue.conditionsABMissing] else [])
      ++ (conds.filter (fun kv => kv.2.cfgName.isNone)).map
        (fun kv => Issue.conditionMissingName kv.1)

/-- `StudyValidator.validate_protocol` (src/validate.py lines 20-51).
`input = none` models an unreadable/unparsable protocol file.  Returns the
extended issue list and the method's boolean return value (whether the
instance's whole issue list is empty).  The too-few-prompts branch only
appends a warning and is therefore invisible here. -/
def validate_protocol (issues : List Issue) (input : Option Protocol) :
    List Issue × Bool :=
  match input with
  | none => (issues ++ [Issue.protocolFileError], false)
  | some protocol =>
    (issues ++ protocol_missing_field_issues protocol
        ++ protocol_condition_issues protocol.conditions,
      (issues ++ protocol_missing_field_issues protocol
        ++ protocol_condition_issues protocol.conditions).length = 0)

/-- The recomputed PMI of a stored `PromptResult`, as
`StudyValidator._validate_pmi_calculation` computes it (src/validate.py
lines 81-86): mean of the stored directive pressures minus mean of the
stored co-facilitative pressures. -/
def expectedPMI (result : PromptResult) : ℚ :=
  meanTotal (result.results_directive.map Trial.pressure)
    - meanTotal (result.results_co_facilitative.map Trial.pressure)

/-- `StudyValidator._validate_pmi_calculation` (src/validate.py lines
78-98).  An empty stored trial list raises `ZeroDivisionError`, caught and
recorded as a validation-error issue; a recomputed PMI differing from the
stored one by more than `0.001` is recorded as a mismatch issue naming the
index and both values; both failure paths return `False`. -/
def validate_pmi_calculation (issues : List Issue) (result : PromptResult)
    (index : ℕ) : List Issue × Bool :=
  if result.results_co_facilitative.length = 0 ∨ result.results_directive.length = 0 then
    (issues ++ [Issue.pmiValidationError index], false)
  else if absQ (result.PMI - expectedPMI result) > 1 / 1000 then
    (issues ++ [Issue.pmiMismatch index (expectedPMI result) result.PMI], false)
  else
    (issues, true)

/-- The `for i, result in enumerate(results['results'])` loop of
`validate_results` (src/validate.py lines 68-70): each result is checked
in order, and the first failing check makes the whole method return
`False` immediately. -/
def validate_results_loop (issues : List Issue) :
    List PromptResult → ℕ → List Issue × Bool
  | [], _ => (issues, true)
  | result :: rest, i =>
    let step := validate_pmi_calculation issues result i
    if step.2 then validate_results_loop step.1 rest (i + 1)
    else (step.1, false)

/-- `StudyValidator._validate_aggregate_stats` (src/validate.py lines
100-120).  An empty stored result list raises `ZeroDivisionError` at the
recomputed mean, caught and recorded; otherwise mean (tolerance `0.001`),
min (exact) and max (exact) are rechecked in that order. -/
def validate_aggregate_stats (issues : List Issue) (run : StudyRun) : List Issue :=
  let all_pmis := run.results.map PromptResult.PMI
  if all_pmis.length = 0 then issues ++ [Issue.aggStatsError]
  else
    let stats := run.aggregate_stats
    let expected_mean := meanTotal all_pmis
    let i1 := if absQ (stats.mean_PMI - expected_mean) > 1 / 1000 then
        issues ++ [Issue.aggMeanMismatch] else issues
    let expected_min := minQ all_pmis
    let expected_max := maxQ all_pmis
    let i2 := if stats.min_PMI ≠ expected_min then
        i1 ++ [Issue.aggMinMismatch expected_min stats.min_PMI] else i1
    if stats.max_PMI ≠ expected_max then
      i2 ++ [Issue.aggMaxMismatch expected_max stats.max_PMI] else i2

/-- `StudyValidator.validate_results` (src/validate.py lines 53-76).
`input = none` models an unreadable/unparsable results file (the
missing-`results`-field early return needs an untyped document and cannot
arise on a structured `StudyRun`).  Per-result PMI checks run first, the
first failure returning `False` at once; only if all pass are the
aggregate statistics rechecked, and the method finally returns whether the
instance's whole issue list is empty. -/
def validate_results (issues : List Issue) (input : Option StudyRun) :
    List Issue × Bool :=
  match input with
  | none => (issues ++ [Issue.resultsFileError], false)
  | some run =>
    let looped := validate_results_loop issues run.results 0
    if looped.2 then
      let i2 := validate_aggregate_stats looped.1 run
      (i2, i2.length = 0)
    else
      (looped.1, false)

/-! ### Results analyzer (src/analyze_results.py, `ResultsAnalyzer`) -/

/-- The per-value test of `ResultsAnalyzer.identify_outliers`
(src/analyze_results.py line 91-92): `abs((value - mean) / std) > threshold`.
The square root is eliminated: for `threshold ≥ 0` and positive variance,
`|x - μ| / √v > t` holds iff `(x - μ)² > t²·v`, and for `threshold < 0`
the nonnegative z-score always exceeds it.  The equivalence with the
z-score formulation is proved below. -/
def outlier_cond (mean_val var_val threshold x : ℚ) : Bool :=
  decide (threshold < 0) || decide ((x - mean_val) ^ 2 > threshold ^ 2 * var_val)

/-- `ResultsAnalyzer.identify_outliers` (src/analyze_results.py lines
78-95): fewer than 3 points → no outliers; zero standard deviation (i.e.
zero sample variance) → no outliers; otherwise the indices whose z-score
exceeds the threshold, in order. -/
def identify_outliers (data : List ℚ) (threshold : ℚ) : List ℕ :=
  if data.length < 3 then []
  else
    let mean_val := meanTotal data
    let var_val := sampleVariance data
    if var_val = 0 then []
    else
      (List.range data.length).filter
        (fun i => outlier_cond mean_val var_val threshold (data.getD i 0))

/-- The three shapes `ResultsAnalyzer.generate_ascii_histogram`
(src/analyze_results.py lines 21-50) can return: the no-data line, the
one-line all-values-equal message, or the 10-bin chart (kept as its bin
counts; the proportional bar rendering below them is presentation only
and out of the modelled core). -/
inductive HistogramOut where
  | noData
  | allEqual (v : ℚ)
  | chart (bin_counts : List ℕ)
deriving DecidableEq

/-- The bin index of one value (src/analyze_results.py line 36):
`min(int((value - min_val) / bin_width), bins - 1)` with `bins = 10`. -/
def bin_index (min_val max_val value : ℚ) : ℤ :=
  min (int_trunc ((value - min_val) / ((max_val - min_val) / 10))) 9

/-- The bin-count accumulation loop (src/analyze_results.py lines 33-37). -/
def bin_counts_of (data : List ℚ) (min_val max_val : ℚ) : List ℕ :=
  data.foldl
    (fun counts value =>
      let idx := (bin_index min_val max_val value).toNat
      counts.set idx (counts.getD idx 0 + 1))
    (List.replicate 10 0)

/-- `ResultsAnalyzer.generate_ascii_histogram` (src/analyze_results.py
lines 21-50), reduced to the shape of its output. -/
def generate_ascii_histogram (data : List ℚ) : HistogramOut :=
  if data.isEmpty then HistogramOut.noData
  else if minQ data = maxQ data then HistogramOut.allEqual (minQ data)
  else HistogramOut.chart (bin_counts_of data (minQ data) (maxQ data))

/-! ### Spec-side definitions for refinement claims -/

/-- Modelled from the spec's words (data-model section): `std_PMI`
as the population standard deviation, `ddof=0` — square root of the mean
of the squared deviations.  Compared against the code's fold, which uses
`statistics.stdev`. -/
noncomputable def population_std_spec (xs : List ℚ) : ℝ :=
  Real.sqrt (((xs.map (fun x => (x - meanTotal xs) ^ 2)).sum / xs.length : ℚ) : ℝ)

/-! ### Concrete sample values for counterexamples and witnesses -/

/-- A co-facilitative trial with pressure 0. -/
def trial0 : Trial :=
  { response := [], pressure := 0, condition := Condition.co_facilitative }

/-- A directive trial with pressure 2. -/
def trial2 : Trial :=
  { response := [], pressure := 2, condition := Condition.directive }

/-- A stored result whose recomputed PMI is `2` but whose stored `PMI`
field was corrupted to `9`. -/
def badResult : PromptResult :=
  { prompt := []
    results_co_facilitative := [trial0]
    results_directive := [trial2]
    mean_pressure_co_facilitative := 0
    mean_pressure_directive := 2
    PMI := 9
    n_trials := 1 }

/-- A fully consistent stored result (PMI 2). -/
def goodResult : PromptResult :=
  { prompt := []
    results_co_facilitative := [trial0]
    results_directive := [trial2]
    mean_pressure_co_facilitative := 0
    mean_pressure_directive := 2
    PMI := 2
    n_trials := 1 }

/-- A stored run in which both results' PMI fields are corrupted and the
aggregate min is wrong as well. -/
noncomputable def badRun : StudyRun :=
  { total_trials := 4
    results := [badResult, badResult]
    aggregate_stats :=
      { mean_PMI := 9, median_PMI := 9, std_PMI := 0, min_PMI := 99,
        max_PMI := 9, effect_significant := true } }

/-- A stored run whose first result is consistent and whose second
result's PMI field is corrupted. -/
noncomputable def mixedRun : StudyRun :=
  { total_trials := 4
    results := [goodResult, badResult]
    aggregate_stats :=
      { mean_PMI := 2, median_PMI := 2, std_PMI := 0, min_PMI := 2,
        max_PMI := 2, effect_significant := true } }

/-- A one-prompt evaluation input: one co-facilitative trial of pressure
0 and one directive trial of pressure 2. -/
def okInput : PromptInput :=
  { prompt := [], trials_a := [trial0], trials_b := [trial2] }

/-- The run `run_full_evaluation [okInput] 1` produces. -/
noncomputable def okRun : StudyRun :=
  { total_trials := 2
    results := [goodResult]
    aggregate_stats :=
      { mean_PMI := 2, median_PMI := 2, std_PMI := 0, min_PMI := 2,
        max_PMI := 2, effect_significant := true } }

/-- A protocol document with every required field present and both
conditions named. -/
def okProtocol : Protocol :=
  { protoName := some "p".toList
    conditions := some
      [("A".toList, { cfgName := some "co-facilitative".toList }),
       ("B".toList, { cfgName := some "directive".toList })]
    test_prompts := some ["q1".toList, "q2".toList, "q3".toList]
    metricsPresent := true }

/-! ## Helper lemmas -/

lemma absQ_eq_abs (q : ℚ) : absQ q = |q| := by
  rw [absQ, abs]
  rcases lt_or_le q 0 with h | h
  · simp [h, if_pos h, max_eq_right (by linarith : q ≤ -q)]
  · simp [if_neg (not_lt.mpr h), max_eq_left (by linarith : -q ≤ q)]

lemma absQ_sub_self (x : ℚ) : absQ (x - x) = 0 := by simp [absQ]

lemma mean_of_ne_nil {xs : List ℚ} (h : xs ≠ []) : mean xs = some (meanTotal xs) := by
  simp [mean, List.length_eq_zero, h]

lemma sum_map_intCast (l : List ℤ) : (l.map (fun z : ℤ => (z : ℚ))).sum = (l.sum : ℚ) := by
  induction l with
  | nil => simp
  | cons a t ih => rw [List.map_cons, List.sum_cons, List.sum_cons, ih]; push_cast; ring

lemma round_py_intCast (n : ℤ) : round_py ((n : ℤ) : ℚ) = n := by
  simp only [round_py, Int.floor_intCast, sub_self]
  norm_num

lemma round3_int_div_ten (k : ℤ) : round3 ((k : ℚ) / 10) = (k : ℚ) / 10 := by
  have h1 : ((k : ℚ) / 10) * 1000 = ((100 * k : ℤ) : ℚ) := by push_cast; ring
  rw [round3, h1, round_py_intCast]
  push_cast; ring

/-! ## Claim theorems -/

/-- C5: the full-path pressure scorer lower-cases the text, forms the
weighted non-overlapping occurrence total over its fixed table (that is
`rawScore`), and buckets it by the breakpoints 0→0, (0,2]→1, (2,4]→2,
(4,7]→3, (7,10]→4, (10,∞)→5; the result is always in [0,5] (its type is
ℕ, so nonnegative) and the empty string scores 0; as a total function it
never fails and is deterministic. -/
theorem pressure_scorer_bucketing :
    (∀ s : List Char, calculate_pressure s = bucket_spec (rawScore s)) ∧
    (∀ s : List Char, calculate_pressure s ≤ 5) ∧
    calculate_pressure [] = 0 := by
  refine ⟨fun s => ?_, fun s => ?_, by decide⟩
  · simp only [calculate_pressure, bucket_spec]
    split_ifs <;> omega
  · simp only [calculate_pressure]
    split_ifs <;> omega

/-- C9: per-prompt aggregation (`run_comparison`'s PMI computation) fails
— `statistics.mean` raises its undefined-mean error, modelled as `none` —
whenever either trial sequence is empty, and returns no `PromptResult`. -/
theorem run_comparison_empty_trials_fails :
    ∀ (prompt : List Char) (results_a results_b : List Trial) (n : ℕ),
      results_a = [] ∨ results_b = [] →
      run_comparison_agg prompt results_a results_b n = none := by
  intro prompt a b n h
  rcases h with h | h
  · subst h
    simp [run_comparison_agg, mean]
  · subst h
    rcases hm : mean (List.map Trial.pressure a) with _ | ma <;>
      simp [run_comparison_agg, hm, mean]

/-- C9 witness: on one empty trial list the aggregation yields no result. -/
theorem run_comparison_empty_trials_fails_witness :
    run_comparison_agg [] [] [trial2] 1 = none :=
  run_comparison_empty_trials_fails [] [] [trial2] 1 (Or.inl rfl)

/-- C1: every `PromptResult` built from non-empty trial sequences stores
as `PMI` exactly the directive mean minus the co-facilitative mean (hence
within 1e-9), both for the live-evaluation aggregator `run_comparison`
and for the sample generator's record builder (whose pressures are
integers and whose trial count is 10, making its 3-decimal rounding the
identity). -/
theorem PMI_stored_matches_mean_difference :
    (∀ (prompt : List Char) (results_a results_b : List Trial) (n : ℕ)
        (r : PromptResult),
      results_a ≠ [] → results_b ≠ [] →
      run_comparison_agg prompt results_a results_b n = some r →
      absQ (r.PMI - (meanTotal (results_b.map Trial.pressure)
        - meanTotal (results_a.map Trial.pressure))) ≤ 1 / 1000000000) ∧
    (∀ (prompt : List Char) (cf dr : List Trial) (cp dp : List ℤ),
      cp.length = 10 → dp.length = 10 →
      absQ ((gs_prompt_result prompt cf dr (cp.map (fun z : ℤ => (z : ℚ)))
          (dp.map (fun z : ℤ => (z : ℚ)))).PMI
        - (meanTotal (dp.map (fun z : ℤ => (z : ℚ)))
          - meanTotal (cp.map (fun z : ℤ => (z : ℚ))))) ≤ 1 / 1000000000) := by
  constructor
  · intro prompt a b n r ha hb hsome
    have ha' : a.map Trial.pressure ≠ [] := by
      simpa [List.map_eq_nil_iff] using ha
    have hb' : b.map Trial.pressure ≠ [] := by
      simpa [List.map_eq_nil_iff] using hb
    rw [run_comparison_agg, mean_of_ne_nil ha', mean_of_ne_nil hb'] at hsome
    simp only [Option.some.injEq] at hsome
    subst hsome
    norm_num [absQ]
  · intro prompt cf dr cp dp hcp hdp
    have hc : meanTotal (cp.map (fun z : ℤ => (z : ℚ))) = (cp.sum : ℚ) / 10 := by
      rw [meanTotal, sum_map_intCast, List.length_map, hcp]
      norm_num
    have hd : meanTotal (dp.map (fun z : ℤ => (z : ℚ))) = (dp.sum : ℚ) / 10 := by
      rw [meanTotal, sum_map_intCast, List.length_map, hdp]
      norm_num
    have hdiff : meanTotal (dp.map (fun z : ℤ => (z : ℚ)))
        - meanTotal (cp.map (fun z : ℤ => (z : ℚ)))
        = ((dp.sum - cp.sum : ℤ) : ℚ) / 10 := by
      rw [hc, hd]; push_cast; ring
    simp only [gs_prompt_result, hdiff, round3_int_div_ten]
    norm_num [absQ]

/-- C1 witness: concrete instances of both aggregation paths. -/
theorem PMI_stored_matches_mean_difference_witness :
    (([trial0] : List Trial) ≠ [] ∧ ([trial2] : List Trial) ≠ [] ∧
      run_comparison_agg [] [trial0] [trial2] 1 = some goodResult ∧
      absQ (goodResult.PMI - (meanTotal ([trial2].map Trial.pressure)
        - meanTotal ([trial0].map Trial.pressure))) ≤ 1 / 1000000000) ∧
    (([0, 0, 0, 0, 0, 0, 0, 0, 0, 0] : List ℤ).length = 10 ∧
      ([2, 2, 2, 2, 2, 2, 2, 2, 2, 2] : List ℤ).length = 10 ∧
      absQ ((gs_prompt_result [] [] []
          (([0, 0, 0, 0, 0, 0, 0, 0, 0, 0] : List ℤ).map (fun z : ℤ => (z : ℚ)))
          (([2, 2, 2, 2, 2, 2, 2, 2, 2, 2] : List ℤ).map (fun z : ℤ => (z : ℚ)))).PMI
        - (meanTotal (([2, 2, 2, 2, 2, 2, 2, 2, 2, 2] : List ℤ).map (fun z : ℤ => (z : ℚ)))
          - meanTotal (([0, 0, 0, 0, 0, 0, 0, 0, 0, 0] : List ℤ).map (fun z : ℤ => (z : ℚ)))))
        ≤ 1 / 1000000000) := by
  have hsome : run_comparison_agg [] [trial0] [trial2] 1 = some goodResult := by
    norm_num [run_comparison_agg, mean, meanTotal, goodResult, trial0, trial2]
  exact ⟨⟨by simp, by simp, hsome,
      PMI_stored_matches_mean_difference.1 [] [trial0] [trial2] 1 goodResult
        (by simp) (by simp) hsome⟩,
    ⟨by simp, by simp,
      PMI_stored_matches_mean_difference.2 [] [] []
        [0, 0, 0, 0, 0, 0, 0, 0, 0, 0] [2, 2, 2, 2, 2, 2, 2, 2, 2, 2]
        (by simp) (by simp)⟩⟩

lemma foldl_min_le_init (l : List ℚ) (a : ℚ) : l.foldl min a ≤ a := by
  induction l generalizing a with
  | nil => simp
  | cons b t ih => exact le_trans (ih (min a b)) (min_le_left a b)

lemma foldl_min_le_mem (l : List ℚ) (a x : ℚ) (hx : x ∈ l) : l.foldl min a ≤ x := by
  induction l generalizing a with
  | nil => cases hx
  | cons b t ih =>
    rcases List.mem_cons.mp hx with rfl | hx'
    · exact le_trans (foldl_min_le_init t (min a x)) (min_le_right a x)
    · exact ih (min a b) hx'

lemma foldl_min_mem (l : List ℚ) (a : ℚ) : l.foldl min a = a ∨ l.foldl min a ∈ l := by
  induction l generalizing a with
  | nil => left; rfl
  | cons b t ih =>
    rcases ih (min a b) with h | h
    · rcases min_choice a b with hm | hm
      · left; rw [List.foldl_cons, h, hm]
      · right; rw [List.foldl_cons, h, hm]; exact List.mem_cons_self b t
    · right; exact List.mem_cons_of_mem b h

lemma minQ_mem {xs : List ℚ} (h : xs ≠ []) : minQ xs ∈ xs := by
  match xs with
  | x :: rest =>
    rcases foldl_min_mem rest x with h1 | h1
    · rw [minQ, h1]; exact List.mem_cons_self _ _
    · rw [minQ]; exact List.mem_cons_of_mem x h1

lemma minQ_le {xs : List ℚ} {x : ℚ} (hx : x ∈ xs) : minQ xs ≤ x := by
  match xs with
  | y :: rest =>
    rw [minQ]
    rcases List.mem_cons.mp hx with rfl | hx'
    · exact foldl_min_le_init rest x
    · exact foldl_min_le_mem rest y x hx'

lemma foldl_max_le_init (l : List ℚ) (a : ℚ) : a ≤ l.foldl max a := by
  induction l generalizing a with
  | nil => simp
  | cons b t ih => exact le_trans (le_max_left a b) (ih (max a b))

lemma foldl_max_le_mem (l : List ℚ) (a x : ℚ) (hx : x ∈ l) : x ≤ l.foldl max a := by
  induction l generalizing a with
  | nil => cases hx
  | cons b t ih =>
    rcases List.mem_cons.mp hx with rfl | hx'
    · exact le_trans (le_max_right a x) (foldl_max_le_init t (max a x))
    · exact ih (max a b) hx'

lemma foldl_max_mem (l : List ℚ) (a : ℚ) : l.foldl max a = a ∨ l.foldl max a ∈ l := by
  induction l generalizing a with
  | nil => left; rfl
  | cons b t ih =>
    rcases ih (max a b) with h | h
    · rcases max_choice a b with hm | hm
      · left; rw [List.foldl_cons, h, hm]
      · right; rw [List.foldl_cons, h, hm]; exact List.mem_cons_self b t
    · right; exact List.mem_cons_of_mem b h

lemma maxQ_mem {xs : List ℚ} (h : xs ≠ []) : maxQ xs ∈ xs := by
  match xs with
  | x :: rest =>
    rcases foldl_max_mem rest x with h1 | h1
    · rw [maxQ, h1]; exact List.mem_cons_self _ _
    · rw [maxQ]; exact List.mem_cons_of_mem x h1

lemma maxQ_ge {xs : List ℚ} {x : ℚ} (hx : x ∈ xs) : x ≤ maxQ xs := by
  match xs with
  | y :: rest =>
    rw [maxQ]
    rcases List.mem_cons.mp hx with rfl | hx'
    · exact foldl_max_le_init rest x
    · exact foldl_max_le_mem rest y x hx'

lemma sampleVariance_nonneg {xs : List ℚ} (h : 2 ≤ xs.length) : 0 ≤ sampleVariance xs := by
  rw [sampleVariance]
  apply div_nonneg
  · apply List.sum_nonneg
    intro x hx
    obtain ⟨y, hy, rfl⟩ := List.mem_map.mp hx
    positivity
  · have h2 : (2 : ℚ) ≤ (xs.length : ℚ) := by exact_mod_cast h
    linarith

/-- C4: over a non-empty list of `PromptResult`s, the aggregate fold's
`min_PMI` and `max_PMI` are the exact minimum and maximum of the
per-prompt PMI values (a member that bounds all members), and
`effect_significant` holds iff `mean_PMI > 1.0`. -/
theorem aggregate_min_max_effect :
    ∀ results : List PromptResult, results ≠ [] →
      ((aggregate_stats_of (results.map PromptResult.PMI)).min_PMI
          ∈ results.map PromptResult.PMI ∧
        ∀ x ∈ results.map PromptResult.PMI,
          (aggregate_stats_of (results.map PromptResult.PMI)).min_PMI ≤ x) ∧
      ((aggregate_stats_of (results.map PromptResult.PMI)).max_PMI
          ∈ results.map PromptResult.PMI ∧
        ∀ x ∈ results.map PromptResult.PMI,
          x ≤ (aggregate_stats_of (results.map PromptResult.PMI)).max_PMI) ∧
      ((aggregate_stats_of (results.map PromptResult.PMI)).effect_significant = true ↔
        (aggregate_stats_of (results.map PromptResult.PMI)).mean_PMI > 1) := by
  intro results h
  have hp : results.map PromptResult.PMI ≠ [] := by simpa [List.map_eq_nil_iff] using h
  simp only [aggregate_stats_of]
  refine ⟨⟨minQ_mem hp, fun x hx => minQ_le hx⟩,
    ⟨maxQ_mem hp, fun x hx => maxQ_ge hx⟩, ?_⟩
  simp [decide_eq_true_iff]

/-- C4 witness: the aggregate over a one-result run. -/
theorem aggregate_min_max_effect_witness :
    (aggregate_stats_of ([goodResult].map PromptResult.PMI)).min_PMI
      ∈ [goodResult].map PromptResult.PMI ∧
    ((aggregate_stats_of ([goodResult].map PromptResult.PMI)).effect_significant = true ↔
      (aggregate_stats_of ([goodResult].map PromptResult.PMI)).mean_PMI > 1) :=
  ⟨(aggregate_min_max_effect [goodResult] (by simp)).1.1,
   (aggregate_min_max_effect [goodResult] (by simp)).2.2⟩

/-- C2 counterexample: the full-evaluation aggregate fold computes
`std_PMI` with `statistics.stdev` (sample, ddof=1), not the population
standard deviation: on the PMI list `[0, 2]` the stored value is `√2`
while the population standard deviation is `1`. -/
theorem std_PMI_not_population_counterexample :
    (aggregate_stats_of [0, 2]).std_PMI ≠ population_std_spec [0, 2] := by
  have h1 : sampleVariance [0, 2] = 2 := by norm_num [sampleVariance, meanTotal]
  have h2 : ((([0, 2] : List ℚ).map (fun x => (x - meanTotal [0, 2]) ^ 2)).sum
      / (([0, 2] : List ℚ).length : ℚ) : ℚ) = 1 := by norm_num [meanTotal]
  simp only [aggregate_stats_of, population_std_spec, stdev, h1, h2]
  rw [if_pos (by norm_num)]
  push_cast
  rw [Real.sqrt_one]
  intro hcontra
  have h3 := Real.sq_sqrt (by norm_num : (0:ℝ) ≤ 2)
  rw [hcontra] at h3
  norm_num at h3

/-- C2 (amended): the full-evaluation aggregate fold computes `std_PMI`
as the SAMPLE standard deviation (`statistics.stdev`, ddof=1) of the
per-prompt PMI values — its square is the sum of squared deviations over
`n - 1` — and `std_PMI` is 0 whenever the sequence has fewer than 2
elements.  (The sample generator's separately coded summary uses the
population formula instead; the two call sites disagree.) -/
theorem std_PMI_is_sample_stdev :
    ∀ pmis : List ℚ,
      (pmis.length < 2 → (aggregate_stats_of pmis).std_PMI = 0) ∧
      (2 ≤ pmis.length →
        0 ≤ (aggregate_stats_of pmis).std_PMI ∧
        (aggregate_stats_of pmis).std_PMI ^ 2
          = (((pmis.map (fun x => (x - meanTotal pmis) ^ 2)).sum
              / ((pmis.length : ℚ) - 1) : ℚ) : ℝ)) := by
  intro pmis
  constructor
  · intro h
    simp only [aggregate_stats_of]
    rw [if_neg (by omega : ¬ pmis.length > 1)]
  · intro h
    have hvar : 0 ≤ sampleVariance pmis := sampleVariance_nonneg h
    simp only [aggregate_stats_of]
    rw [if_pos (by omega : pmis.length > 1)]
    refine ⟨Real.sqrt_nonneg _, ?_⟩
    rw [stdev, Real.sq_sqrt (by exact_mod_cast hvar)]
    exact rfl

/-- C2 witness: the sample-standard-deviation identity at `[0, 2]`. -/
theorem std_PMI_is_sample_stdev_witness :
    2 ≤ ([0, 2] : List ℚ).length ∧
    (aggregate_stats_of [0, 2]).std_PMI ^ 2
      = (((([0, 2] : List ℚ).map (fun x => (x - meanTotal [0, 2]) ^ 2)).sum
          / ((([0, 2] : List ℚ).length : ℚ) - 1) : ℚ) : ℝ) :=
  ⟨by norm_num, ((std_PMI_is_sample_stdev [0, 2]).2 (by norm_num)).2⟩

lemma zscore_iff {x m v t : ℚ} (hv : 0 < v) :
    (t < 0 ∨ t ^ 2 * v < (x - m) ^ 2) ↔
      |((x : ℚ) : ℝ) - ((m : ℚ) : ℝ)| / Real.sqrt ((v : ℚ) : ℝ) > (t : ℝ) := by
  have hvR : (0:ℝ) < ((v:ℚ):ℝ) := by exact_mod_cast hv
  have hS : 0 < Real.sqrt ((v:ℚ):ℝ) := Real.sqrt_pos.mpr hvR
  have hS2 : Real.sqrt ((v:ℚ):ℝ) ^ 2 = ((v:ℚ):ℝ) := Real.sq_sqrt hvR.le
  have hDnn : (0:ℝ) ≤ |((x : ℚ) : ℝ) - ((m : ℚ) : ℝ)| := abs_nonneg _
  have hD2 : |((x : ℚ) : ℝ) - ((m : ℚ) : ℝ)| ^ 2 = (((x - m) ^ 2 : ℚ) : ℝ) := by
    rw [sq_abs]; push_cast; ring
  rw [gt_iff_lt, lt_div_iff₀ hS]
  constructor
  · rintro (ht | hlt)
    · have htR : (t:ℝ) < 0 := by exact_mod_cast ht
      have : (t:ℝ) * Real.sqrt ((v:ℚ):ℝ) < 0 := mul_neg_of_neg_of_pos htR hS
      linarith
    · have hltR : ((t:ℝ))^2 * ((v:ℚ):ℝ) < (((x - m)^2 : ℚ):ℝ) := by
        have : ((t^2 * v : ℚ):ℝ) < (((x - m)^2 : ℚ):ℝ) := by exact_mod_cast hlt
        push_cast at this ⊢
        linarith
      have hsq : ((t:ℝ) * Real.sqrt ((v:ℚ):ℝ)) ^ 2
          < |((x : ℚ) : ℝ) - ((m : ℚ) : ℝ)| ^ 2 := by
        rw [mul_pow, hS2, hD2]; exact hltR
      nlinarith [hsq, hDnn]
  · intro hlt
    by_cases ht : t < 0
    · exact Or.inl ht
    · right
      push_neg at ht
      have htR : (0:ℝ) ≤ (t:ℝ) := by exact_mod_cast ht
      have htS : 0 ≤ (t:ℝ) * Real.sqrt ((v:ℚ):ℝ) := mul_nonneg htR hS.le
      have hsq : ((t:ℝ) * Real.sqrt ((v:ℚ):ℝ)) ^ 2
          < |((x : ℚ) : ℝ) - ((m : ℚ) : ℝ)| ^ 2 := by
        nlinarith [hlt, htS]
      rw [mul_pow, hS2, hD2] at hsq
      have : ((t^2 * v : ℚ):ℝ) < (((x - m)^2 : ℚ):ℝ) := by
        push_cast at hsq ⊢
        linarith
      exact_mod_cast this

/-- C7 counterexample: the spec's example is wrong on the code:
`identify_outliers([1,1,1,1,100], threshold=2.0)` returns `[]` and in
particular does NOT include index 4 (the index of 100) — the largest
z-score of that list is 79.2/√1960.2 ≈ 1.789, which does not exceed 2. -/
theorem outliers_spec_example_counterexample :
    identify_outliers [1, 1, 1, 1, 100] 2 = [] ∧
    ¬ (4 ∈ identify_outliers [1, 1, 1, 1, 100] 2) := by
  have h : identify_outliers [1, 1, 1, 1, 100] 2 = [] := by
    norm_num [identify_outliers, sampleVariance, meanTotal, outlier_cond, List.filter]
  exact ⟨h, by rw [h]; simp⟩

/-- C7 (amended): outlier detection returns exactly the indices whose
z-score `|x_i − mean| / stdev` exceeds the threshold, and the empty list
whenever the list has fewer than 3 elements or the stdev is zero; the
spec's first example is corrected — `identify_outliers([1,1,1,1,100],
threshold=2.0)` returns `[]` (its largest z-score is ≈ 1.789 ≤ 2) — and
`identify_outliers([1,2], threshold=2.0) = []` as stated. -/
theorem identify_outliers_zscore :
    ∀ (data : List ℚ) (threshold : ℚ),
      ((data.length < 3 ∨ stdev data = 0) → identify_outliers data threshold = []) ∧
      (3 ≤ data.length → sampleVariance data ≠ 0 →
        ∀ i : ℕ, i ∈ identify_outliers data threshold ↔
          (i < data.length ∧
            |((data.getD i 0 : ℚ) : ℝ) - ((meanTotal data : ℚ) : ℝ)| / stdev data
              > (threshold : ℝ))) ∧
      identify_outliers [1, 1, 1, 1, 100] 2 = [] ∧
      identify_outliers [1, 2] 2 = [] := by
  intro data threshold
  refine ⟨?_, ?_,
    by norm_num [identify_outliers, sampleVariance, meanTotal, outlier_cond, List.filter],
    by norm_num [identify_outliers]⟩
  · intro h
    by_cases hlen : data.length < 3
    · simp [identify_outliers, hlen]
    · rcases h with h | hstd
      · omega
      · have hnn : 0 ≤ sampleVariance data := sampleVariance_nonneg (by omega)
        have hv0 : sampleVariance data = 0 := by
          have h1 : ((sampleVariance data : ℚ) : ℝ) ≤ 0 := by
            rw [stdev] at hstd
            exact Real.sqrt_eq_zero'.mp hstd
          have h2 : sampleVariance data ≤ 0 := by exact_mod_cast h1
          linarith
        simp [identify_outliers, hlen, hv0]
  · intro hlen hvar i
    have hvpos : 0 < sampleVariance data :=
      lt_of_le_of_ne (sampleVariance_nonneg (by omega)) (Ne.symm hvar)
    simp only [identify_outliers]
    rw [if_neg (by omega : ¬ data.length < 3), if_neg hvar]
    rw [List.mem_filter, List.mem_range]
    have hcond : (outlier_cond (meanTotal data) (sampleVariance data) threshold
        (data.getD i 0) = true) ↔
        (threshold < 0 ∨ threshold ^ 2 * sampleVariance data
          < (data.getD i 0 - meanTotal data) ^ 2) := by
      simp [outlier_cond, Bool.or_eq_true, decide_eq_true_iff]
    rw [hcond, zscore_iff hvpos, stdev]

/-- C7 witness: on `[0,0,0,0,10]` with threshold 1, index 4 is an outlier
and its z-score really exceeds 1; and `[1,2]` yields no outliers. -/
theorem identify_outliers_zscore_witness :
    identify_outliers [1, 2] 2 = [] ∧
    (4 < ([0, 0, 0, 0, 10] : List ℚ).length ∧
      |((([0, 0, 0, 0, 10] : List ℚ).getD 4 0 : ℚ) : ℝ)
          - ((meanTotal [0, 0, 0, 0, 10] : ℚ) : ℝ)| / stdev [0, 0, 0, 0, 10]
        > ((1 : ℚ) : ℝ)) := by
  refine ⟨(identify_outliers_zscore [1, 2] 2).2.2.2, ?_⟩
  refine ((identify_outliers_zscore [0, 0, 0, 0, 10] 1).2.1 (by norm_num)
    (by norm_num [sampleVariance, meanTotal]) 4).mp ?_
  norm_num [identify_outliers, sampleVariance, meanTotal, outlier_cond, List.filter]

lemma minQ_le_maxQ {data : List ℚ} (h : data ≠ []) : minQ data ≤ maxQ data :=
  minQ_le (maxQ_mem h)

lemma int_trunc_of_nonneg {q : ℚ} (h : 0 ≤ q) : int_trunc q = ⌊q⌋ := by
  rw [int_trunc, if_neg (not_lt.mpr h)]

lemma bin_index_nonneg {minv maxv v : ℚ} (hlt : minv < maxv) (hv : minv ≤ v) :
    0 ≤ bin_index minv maxv v := by
  rw [bin_index]
  have hw : 0 < (maxv - minv) / 10 := by
    apply div_pos <;> linarith
  have hr : 0 ≤ (v - minv) / ((maxv - minv) / 10) := div_nonneg (by linarith) hw.le
  rw [int_trunc_of_nonneg hr]
  exact le_min (Int.floor_nonneg.mpr hr) (by norm_num)

lemma bin_index_le_nine (minv maxv v : ℚ) : bin_index minv maxv v ≤ 9 :=
  min_le_right _ _

lemma bin_index_max {minv maxv : ℚ} (hlt : minv < maxv) :
    bin_index minv maxv maxv = 9 := by
  rw [bin_index]
  have hw : (maxv - minv) / 10 ≠ 0 := by
    have : (0:ℚ) < (maxv - minv) / 10 := by apply div_pos <;> linarith
    linarith
  have hne0 : maxv - minv ≠ 0 := by
    intro h0
    rw [h0] at hw
    simp at hw
  have hr : (maxv - minv) / ((maxv - minv) / 10) = 10 := by
    field_simp
  rw [hr, int_trunc_of_nonneg (by norm_num : (0:ℚ) ≤ 10)]
  norm_num

lemma sum_set_getD_succ : ∀ (l : List ℕ) (i : ℕ), i < l.length →
    (l.set i (l.getD i 0 + 1)).sum = l.sum + 1 := by
  intro l
  induction l with
  | nil => intro i h; simp at h
  | cons a t ih =>
    intro i h
    cases i with
    | zero => simp [List.getD]; omega
    | succ j =>
      simp only [List.set, List.getD_cons_succ, List.sum_cons]
      rw [ih j (by simpa using h)]
      omega

lemma bins_fold_length (minv maxv : ℚ) :
    ∀ (data : List ℚ) (counts : List ℕ),
      (data.foldl (fun counts value =>
          let idx := (bin_index minv maxv value).toNat
          counts.set idx (counts.getD idx 0 + 1)) counts).length
        = counts.length := by
  intro data
  induction data with
  | nil => intro counts; simp
  | cons v t ih => intro counts; rw [List.foldl_cons, ih]; simp

lemma bins_fold_sum (minv maxv : ℚ) :
    ∀ (data : List ℚ) (counts : List ℕ),
      (∀ v ∈ data, (bin_index minv maxv v).toNat < counts.length) →
      (data.foldl (fun counts value =>
          let idx := (bin_index minv maxv value).toNat
          counts.set idx (counts.getD idx 0 + 1)) counts).sum
        = counts.sum + data.length := by
  intro data
  induction data with
  | nil => intro counts _; simp
  | cons v t ih =>
    intro counts h
    rw [List.foldl_cons]
    have hv : ((bin_index minv maxv v).toNat) < counts.length :=
      h v (List.mem_cons_self v t)
    have hrest : ∀ w ∈ t, (bin_index minv maxv w).toNat
        < ((counts.set (bin_index minv maxv v).toNat
            ((counts.getD (bin_index minv maxv v).toNat 0 + 1))).length) := by
      intro w hw
      rw [List.length_set]
      exact h w (List.mem_cons_of_mem v hw)
    rw [ih _ hrest, sum_set_getD_succ counts _ hv]
    simp
    omega

/-- C8: on a non-empty all-equal list the histogram renderer returns the
one-line "all values = v" message instead of a chart; when min and max
are distinct, every value's clamped bin index lies in [0, 9] (never out
of range), values equal to the maximum land in the last bin (index 9),
the chart has 10 bins, and each value is counted in exactly one bin (the
bin counts sum to the number of values). -/
theorem histogram_degenerate_and_bins :
    ∀ data : List ℚ,
      (data ≠ [] → (∀ v ∈ data, ∀ w ∈ data, v = w) →
        generate_ascii_histogram data = HistogramOut.allEqual (minQ data)) ∧
      (minQ data ≠ maxQ data →
        ((∀ v ∈ data, 0 ≤ bin_index (minQ data) (maxQ data) v ∧
            bin_index (minQ data) (maxQ data) v ≤ 9) ∧
          bin_index (minQ data) (maxQ data) (maxQ data) = 9 ∧
          (bin_counts_of data (minQ data) (maxQ data)).length = 10 ∧
          (bin_counts_of data (minQ data) (maxQ data)).sum = data.length ∧
          generate_ascii_histogram data
            = HistogramOut.chart (bin_counts_of data (minQ data) (maxQ data)))) := by
  intro data
  constructor
  · intro hne hall
    have heq : minQ data = maxQ data := hall _ (minQ_mem hne) _ (maxQ_mem hne)
    simp [generate_ascii_histogram, List.isEmpty_iff, hne, heq]
  · intro h
    have hne : data ≠ [] := by
      intro hd
      subst hd
      exact h rfl
    have hlt : minQ data < maxQ data := lt_of_le_of_ne (minQ_le_maxQ hne) h
    have hbounds : ∀ v ∈ data, 0 ≤ bin_index (minQ data) (maxQ data) v ∧
        bin_index (minQ data) (maxQ data) v ≤ 9 := by
      intro v hv
      exact ⟨bin_index_nonneg hlt (minQ_le hv), bin_index_le_nine _ _ _⟩
    have hsmall : ∀ v ∈ data,
        (bin_index (minQ data) (maxQ data) v).toNat < (List.replicate 10 0).length := by
      intro v hv
      have h9 : (bin_index (minQ data) (maxQ data) v).toNat ≤ 9 := by
        have := (hbounds v hv).2
        omega
      simp [List.length_replicate]
      omega
    refine ⟨hbounds, bin_index_max hlt, ?_, ?_, ?_⟩
    · rw [bin_counts_of, bins_fold_length]
      simp
    · rw [bin_counts_of, bins_fold_sum _ _ _ _ hsmall]
      simp
    · simp [generate_ascii_histogram, List.isEmpty_iff, hne, h]

/-- C8 witness: `[5,5,5]` yields the all-equal message; on `[0,10]` the
bin counts sum to the list length. -/
theorem histogram_degenerate_and_bins_witness :
    generate_ascii_histogram [5, 5, 5] = HistogramOut.allEqual (minQ [5, 5, 5]) ∧
    (bin_counts_of [0, 10] (minQ [0, 10]) (maxQ [0, 10])).sum
      = ([0, 10] : List ℚ).length := by
  constructor
  · refine (histogram_degenerate_and_bins [5, 5, 5]).1 (by simp) ?_
    intro v hv w hw
    simp at hv hw
    rw [hv, hw]
  · exact ((histogram_degenerate_and_bins [0, 10]).2
      (by norm_num [minQ, maxQ, min_def, max_def])).2.2.2.1


lemma vpc_ok {issues : List Issue} {r : PromptResult} {i : ℕ}
    (hc : r.results_co_facilitative ≠ []) (hd : r.results_directive ≠ [])
    (htol : absQ (r.PMI - expectedPMI r) ≤ 1 / 1000) :
    validate_pmi_calculation issues r i = (issues, true) := by
  rw [validate_pmi_calculation,
    if_neg (by simp [List.length_eq_zero, hc, hd]),
    if_neg (not_lt.mpr htol)]

lemma vpc_mismatch {issues : List Issue} {r : PromptResult} {i : ℕ}
    (hc : r.results_co_facilitative ≠ []) (hd : r.results_directive ≠ [])
    (htol : absQ (r.PMI - expectedPMI r) > 1 / 1000) :
    validate_pmi_calculation issues r i
      = (issues ++ [Issue.pmiMismatch i (expectedPMI r) r.PMI], false) := by
  rw [validate_pmi_calculation,
    if_neg (by simp [List.length_eq_zero, hc, hd]),
    if_pos htol]

lemma vpc_true_eq {issues : List Issue} {r : PromptResult} {i : ℕ}
    (h : (validate_pmi_calculation issues r i).2 = true) :
    (validate_pmi_calculation issues r i).1 = issues := by
  by_cases h1 : r.results_co_facilitative.length = 0 ∨ r.results_directive.length = 0
  · rw [validate_pmi_calculation, if_pos h1] at h
    simp at h
  · by_cases h2 : absQ (r.PMI - expectedPMI r) > 1 / 1000
    · rw [validate_pmi_calculation, if_neg h1, if_pos h2] at h
      simp at h
    · rw [validate_pmi_calculation, if_neg h1, if_neg h2]

lemma vpc_false_ne_nil {issues : List Issue} {r : PromptResult} {i : ℕ}
    (h : (validate_pmi_calculation issues r i).2 = false) :
    (validate_pmi_calculation issues r i).1 ≠ [] := by
  by_cases h1 : r.results_co_facilitative.length = 0 ∨ r.results_directive.length = 0
  · rw [validate_pmi_calculation, if_pos h1]
    simp
  · by_cases h2 : absQ (r.PMI - expectedPMI r) > 1 / 1000
    · rw [validate_pmi_calculation, if_neg h1, if_pos h2]
      simp
    · rw [validate_pmi_calculation, if_neg h1, if_neg h2] at h
      simp at h

lemma loop_ok : ∀ (rs : List PromptResult) (issues : List Issue) (i : ℕ),
    (∀ r ∈ rs, r.results_co_facilitative ≠ [] ∧ r.results_directive ≠ [] ∧
      absQ (r.PMI - expectedPMI r) ≤ 1 / 1000) →
    validate_results_loop issues rs i = (issues, true) := by
  intro rs
  induction rs with
  | nil => intro issues i _; rfl
  | cons r t ih =>
    intro issues i h
    obtain ⟨hc, hd, htol⟩ := h r (List.mem_cons_self r t)
    rw [validate_results_loop, vpc_ok hc hd htol]
    simpa using ih issues (i + 1) (fun r' hr' => h r' (List.mem_cons_of_mem r hr'))

lemma loop_true_eq : ∀ (rs : List PromptResult) (issues : List Issue) (i : ℕ),
    (validate_results_loop issues rs i).2 = true →
    (validate_results_loop issues rs i).1 = issues := by
  intro rs
  induction rs with
  | nil => intro issues i _; rfl
  | cons r t ih =>
    intro issues i h
    rw [validate_results_loop] at h ⊢
    by_cases hs : (validate_pmi_calculation issues r i).2 = true
    · rw [if_pos hs] at h ⊢
      rw [vpc_true_eq hs] at h ⊢
      exact ih issues (i + 1) h
    · simp only [Bool.not_eq_true] at hs
      rw [hs] at h ⊢
      simp at h

lemma loop_false_ne_nil : ∀ (rs : List PromptResult) (issues : List Issue) (i : ℕ),
    (validate_results_loop issues rs i).2 = false →
    (validate_results_loop issues rs i).1 ≠ [] := by
  intro rs
  induction rs with
  | nil => intro issues i h; simp [validate_results_loop] at h
  | cons r t ih =>
    intro issues i h
    rw [validate_results_loop] at h ⊢
    by_cases hs : (validate_pmi_calculation issues r i).2 = true
    · rw [if_pos hs] at h ⊢
      rw [vpc_true_eq hs] at h ⊢
      exact ih issues (i + 1) h
    · simp only [Bool.not_eq_true] at hs
      rw [hs] at h ⊢
      simp only [Bool.false_eq_true, if_false]
      exact vpc_false_ne_nil hs

lemma loop_append : ∀ (pre l : List PromptResult) (issues : List Issue) (i : ℕ),
    (∀ r ∈ pre, r.results_co_facilitative ≠ [] ∧ r.results_directive ≠ [] ∧
      absQ (r.PMI - expectedPMI r) ≤ 1 / 1000) →
    validate_results_loop issues (pre ++ l) i
      = validate_results_loop issues l (i + pre.length) := by
  intro pre
  induction pre with
  | nil => intro l issues i _; simp
  | cons p t ih =>
    intro l issues i h
    obtain ⟨hc, hd, htol⟩ := h p (List.mem_cons_self p t)
    rw [List.cons_append, validate_results_loop, vpc_ok hc hd htol]
    simp only [if_pos]
    rw [ih l issues (i + 1) (fun r' hr' => h r' (List.mem_cons_of_mem p hr'))]
    congr 1
    simp
    omega

lemma loop_head_mismatch {r : PromptResult} {rest : List PromptResult}
    {issues : List Issue} {i : ℕ}
    (hc : r.results_co_facilitative ≠ []) (hd : r.results_directive ≠ [])
    (htol : absQ (r.PMI - expectedPMI r) > 1 / 1000) :
    validate_results_loop issues (r :: rest) i
      = (issues ++ [Issue.pmiMismatch i (expectedPMI r) r.PMI], false) := by
  rw [validate_results_loop, vpc_mismatch hc hd htol]
  simp


lemma mean_eq_some {xs : List ℚ} {m : ℚ} (h : mean xs = some m) :
    xs ≠ [] ∧ m = meanTotal xs := by
  by_cases hz : xs.length = 0
  · rw [mean, if_pos hz] at h; cases h
  · rw [mean, if_neg hz] at h
    injection h with h
    refine ⟨?_, h.symm⟩
    intro he
    subst he
    simp at hz

lemma run_comparison_agg_some {prompt : List Char} {a b : List Trial} {n : ℕ}
    {r : PromptResult} (h : run_comparison_agg prompt a b n = some r) :
    r.results_co_facilitative = a ∧ r.results_directive = b ∧ a ≠ [] ∧ b ≠ [] ∧
      r.PMI = meanTotal (b.map Trial.pressure) - meanTotal (a.map Trial.pressure) := by
  rcases hma : mean (a.map Trial.pressure) with _ | ma <;>
    rcases hmb : mean (b.map Trial.pressure) with _ | mb <;>
      rw [run_comparison_agg, hma, hmb] at h <;> simp only [] at h
  · cases h
  · cases h
  · cases h
  · obtain ⟨hanil, hma'⟩ := mean_eq_some hma
    obtain ⟨hbnil, hmb'⟩ := mean_eq_some hmb
    simp only [Option.some.injEq] at h
    subst h
    refine ⟨rfl, rfl, ?_, ?_, ?_⟩
    · intro he; subst he; simp at hanil
    · intro he; subst he; simp at hbnil
    · simp only []
      rw [hma', hmb']

lemma build_results_some : ∀ (inputs : List PromptInput) (n : ℕ) (rs : List PromptResult),
    build_results n inputs = some rs →
    ∀ r ∈ rs, r.results_co_facilitative ≠ [] ∧ r.results_directive ≠ [] ∧
      absQ (r.PMI - expectedPMI r) ≤ 1 / 1000 := by
  intro inputs
  induction inputs with
  | nil =>
    intro n rs h r hr
    rw [build_results] at h
    injection h with h
    subst h
    cases hr
  | cons x t ih =>
    intro n rs h r hr
    rw [build_results] at h
    rcases hx : run_comparison_agg x.prompt x.trials_a x.trials_b n with _ | r0 <;>
      rw [hx] at h
    · cases h
    · rcases hrest : build_results n t with _ | rs0 <;> rw [hrest] at h
      · cases h
      · injection h with h
        subst h
        rcases List.mem_cons.mp hr with rfl | hr'
        · obtain ⟨hca, hdb, ha, hb, hpmi⟩ := run_comparison_agg_some hx
          refine ⟨by rw [hca]; exact ha, by rw [hdb]; exact hb, ?_⟩
          rw [expectedPMI, hca, hdb, hpmi, sub_self, absQ]
          norm_num
        · exact ih n rs0 hrest r hr'

lemma vas_self {issues : List Issue} {run : StudyRun}
    (hne : run.results ≠ [])
    (hmean : run.aggregate_stats.mean_PMI = meanTotal (run.results.map PromptResult.PMI))
    (hmin : run.aggregate_stats.min_PMI = minQ (run.results.map PromptResult.PMI))
    (hmax : run.aggregate_stats.max_PMI = maxQ (run.results.map PromptResult.PMI)) :
    validate_aggregate_stats issues run = issues := by
  have hz : ¬ (run.results.map PromptResult.PMI).length = 0 := by
    simp [List.length_eq_zero, List.map_eq_nil_iff, hne]
  simp only [validate_aggregate_stats]
  rw [if_neg hz,
    if_neg (by simp [hmax]),
    if_neg (by simp [hmin]),
    if_neg (by rw [hmean, absQ_sub_self]; norm_num)]

lemma vas_ne_nil {issues : List Issue} (run : StudyRun) (h : issues ≠ []) :
    validate_aggregate_stats issues run ≠ [] := by
  simp only [validate_aggregate_stats]
  split_ifs <;> simp_all

/-- C6: round-trip — any run the evaluator produces (for any prompt set
and any resolution of the simulation randomness) passes validation with
an empty issue list: every stored PMI recomputes exactly, and the stored
aggregate mean/min/max recompute exactly. -/
theorem generator_validator_round_trip :
    ∀ (inputs : List PromptInput) (n : ℕ) (run : StudyRun),
      run_full_evaluation inputs n = some run →
      validate_results [] (some run) = ([], true) := by
  intro inputs n run h
  unfold run_full_evaluation at h
  split at h
  · cases h
  · rename_i all_results heq
    split at h
    · cases h
    · rename_i hz
      injection h with h
      subst h
      have hcons := build_results_some inputs n all_results heq
      have hne : all_results ≠ [] := by
        intro he; subst he; simp at hz
      rw [validate_results]
      rw [loop_ok all_results [] 0 hcons]
      have hv := @vas_self []
        { total_trials := inputs.length * n * 2, results := all_results,
          aggregate_stats := aggregate_stats_of (all_results.map PromptResult.PMI) }
        hne (by simp [aggregate_stats_of]) (by simp [aggregate_stats_of])
        (by simp [aggregate_stats_of])
      simp only [hv]
      simp

/-- C6 witness: a concrete one-prompt run validates cleanly. -/
theorem generator_validator_round_trip_witness :
    ∃ run : StudyRun, run_full_evaluation [okInput] 1 = some run ∧
      validate_results [] (some run) = ([], true) := by
  have h : run_full_evaluation [okInput] 1 = some okRun := by
    norm_num [run_full_evaluation, build_results, run_comparison_agg, mean, meanTotal,
      aggregate_stats_of, okInput, okRun, goodResult, trial0, trial2, median, minQ,
      maxQ, List.mergeSort]
  exact ⟨okRun, h, generator_validator_round_trip [okInput] 1 okRun h⟩

/-- C10: both validator methods return `len(self.issues) == 0` over the
issues accumulated on the instance, not just those of the current check:
each returns true iff the instance's whole issue list is empty after the
call, and once the incoming issue list is non-empty every subsequent
call returns false regardless of its own input. -/
theorem validator_returns_iff_no_issues :
    ∀ (issues : List Issue) (p : Option Protocol) (res : Option StudyRun),
      ((validate_protocol issues p).2 = true ↔ (validate_protocol issues p).1 = []) ∧
      ((validate_results issues res).2 = true ↔ (validate_results issues res).1 = []) ∧
      (issues ≠ [] → (validate_protocol issues p).2 = false ∧
        (validate_results issues res).2 = false) := by
  intro issues p res
  refine ⟨?_, ?_, ?_⟩
  · cases p with
    | none =>
      simp only [validate_protocol]
      constructor
      · intro hx; cases hx
      · intro hx; exact absurd hx (by simp)
    | some protocol =>
      simp only [validate_protocol, decide_eq_true_eq, List.length_eq_zero]
  · cases res with
    | none =>
      simp only [validate_results]
      constructor
      · intro hx; cases hx
      · intro hx; exact absurd hx (by simp)
    | some run =>
      rw [validate_results]
      by_cases hl : (validate_results_loop issues run.results 0).2 = true
      · rw [if_pos hl]
        simp only [decide_eq_true_eq, List.length_eq_zero]
      · simp only [Bool.not_eq_true] at hl
        rw [hl]
        simp only [Bool.false_eq_true, if_false]
        have hnn := loop_false_ne_nil run.results issues 0 hl
        constructor
        · intro hx; cases hx
        · intro hx; exact absurd hx hnn
  · intro hI
    constructor
    · cases p with
      | none => simp [validate_protocol]
      | some protocol =>
        simp only [validate_protocol]
        simp only [List.length_eq_zero]
        simp [List.append_eq_nil]
        exact fun h _ => absurd h hI
    · cases res with
      | none => simp [validate_results]
      | some run =>
        rw [validate_results]
        by_cases hl : (validate_results_loop issues run.results 0).2 = true
        · rw [if_pos hl]
          have h1 := loop_true_eq run.results issues 0 hl
          have h2 : validate_aggregate_stats
              (validate_results_loop issues run.results 0).1 run ≠ [] := by
            rw [h1]
            exact vas_ne_nil run hI
          simp [List.length_eq_zero, h2]
        · simp only [Bool.not_eq_true] at hl
          rw [hl]
          simp

/-- C10 witness: after one recorded issue, both methods return false on
fully valid inputs. -/
theorem validator_returns_iff_no_issues_witness :
    ([Issue.protocolFileError] : List Issue) ≠ [] ∧
    (validate_protocol [Issue.protocolFileError] (some okProtocol)).2 = false ∧
    (validate_results [Issue.protocolFileError] (some okRun)).2 = false :=
  ⟨by simp,
   ((validator_returns_iff_no_issues [Issue.protocolFileError] (some okProtocol)
      (some okRun)).2.2 (by simp)).1,
   ((validator_returns_iff_no_issues [Issue.protocolFileError] (some okProtocol)
      (some okRun)).2.2 (by simp)).2⟩

/-- C3 counterexample: a PMI mismatch DOES abort validation of the
remaining records and of the aggregate statistics.  In `badRun` both
stored results are corrupted (stored PMI 9, recomputed 2, difference
beyond tolerance) and the stored aggregate min is wrong, yet validation
returns only the single issue for index 0: the second result and the
aggregate statistics were never checked. -/
theorem validator_mismatch_aborts_counterexample :
    validate_results [] (some badRun) = ([Issue.pmiMismatch 0 2 9], false) ∧
    badRun.results = [badResult, badResult] ∧
    absQ (badResult.PMI - expectedPMI badResult) > 1 / 1000 ∧
    badRun.aggregate_stats.min_PMI ≠ minQ (badRun.results.map PromptResult.PMI) := by
  refine ⟨?_, rfl, ?_, ?_⟩
  · norm_num [validate_results, validate_results_loop, validate_pmi_calculation,
      expectedPMI, meanTotal, absQ, badRun, badResult, trial0, trial2]
  · norm_num [badResult, expectedPMI, meanTotal, absQ, trial0, trial2]
  · norm_num [badRun, badResult, minQ, min_def]

/-- C3 (amended): the recomputation check recomputes each stored
PromptResult's PMI in order and, at the first index whose stored PMI
differs from the recomputed one by more than 0.001, appends exactly one
issue naming that index and both values — and then aborts:
`validate_results` returns false immediately, without validating the
remaining PromptResults or the aggregate statistics. -/
theorem validator_mismatch_issue_and_abort :
    ∀ (issues : List Issue) (run : StudyRun) (pre : List PromptResult)
      (r : PromptResult) (rest : List PromptResult),
      run.results = pre ++ r :: rest →
      (∀ r' ∈ pre, r'.results_co_facilitative ≠ [] ∧ r'.results_directive ≠ [] ∧
        absQ (r'.PMI - expectedPMI r') ≤ 1 / 1000) →
      r.results_co_facilitative ≠ [] → r.results_directive ≠ [] →
      absQ (r.PMI - expectedPMI r) > 1 / 1000 →
      validate_results issues (some run)
        = (issues ++ [Issue.pmiMismatch pre.length (expectedPMI r) r.PMI], false) := by
  intro issues run pre r rest hres hpre hc hd htol
  rw [validate_results, hres, loop_append pre (r :: rest) issues 0 hpre,
    loop_head_mismatch hc hd htol]
  simp

/-- C3 witness: in `mixedRun` the first stored result is consistent and
the second is corrupted; validation stops right after recording the
index-1 issue. -/
theorem validator_mismatch_issue_and_abort_witness :
    validate_results [] (some mixedRun)
      = ([Issue.pmiMismatch 1 (expectedPMI badResult) badResult.PMI], false) ∧
    expectedPMI badResult = 2 ∧ badResult.PMI = 9 := by
  refine ⟨?_, ?_, rfl⟩
  · exact validator_mismatch_issue_and_abort [] mixedRun [goodResult] badResult []
      rfl
      (by
        intro r' hr'
        simp only [List.mem_singleton] at hr'
        subst hr'
        refine ⟨by simp [goodResult], by simp [goodResult], ?_⟩
        norm_num [goodResult, expectedPMI, meanTotal, absQ, trial0, trial2])
      (by simp [badResult]) (by simp [badResult])
      (by norm_num [badResult, expectedPMI, meanTotal, absQ, trial0, trial2])
  · norm_num [badResult, expectedPMI, meanTotal, trial0, trial2]

end ToneStudy
